import Mathlib

/-!
Shallow embedding of the wayshot screenshot utility (src/src/main.rs).

The program captures one frame from a Wayland compositor via the
wlr-screencopy protocol: it selects a supported pixel format from the
advertised list, allocates a shared-memory buffer (memfd with a shm_open
fallback), waits for the copy to finish or fail, normalizes the channel
order of the pixels, and JPEG-encodes the result to stdout.

We embed the decision logic of `main` (format selection, buffer sizing,
the copy-wait loop, pixel normalization) and of `create_shm_fd`
(the memfd loop with seal handling, and the named shm_open fallback with
its collision/interrupt retries and unlink-then-close error handling).
System calls are modelled by explicit result streams consumed in order,
so the allocator functions are deterministic in their environment.
Machine integers (u32, i32, u64) are modelled as Nat / Int with explicit
reduction modulo 2^32 where Rust's release-mode wrapping applies.
-/

/-- Pixel formats of the wl_shm protocol.  The three formats the program
supports are named; every other wl_shm format is represented by its
protocol code. -/
inductive Format where
  | Argb8888
  | Xrgb8888
  | Xbgr8888
  | Other (code : Nat)
deriving DecidableEq, Repr

/-- `FrameFormat` as in main.rs: a pixel format together with width,
height and row stride (all u32 on the wire, embedded as Nat). -/
structure FrameFormat where
  format : Format
  width : Nat
  height : Nat
  stride : Nat
deriving DecidableEq, Repr

/-- Terminal states of the frame copy, as in main.rs (`FrameState`). -/
inductive FrameState where
  | Failed
  | Finished
deriving DecidableEq, Repr

/-- The `matches!` test at main.rs:136-141: a format is supported iff it
is Argb8888, Xrgb8888 or Xbgr8888. -/
def isSupportedFormat (f : Format) : Bool :=
  match f with
  | .Argb8888 => true
  | .Xrgb8888 => true
  | .Xbgr8888 => true
  | .Other _ => false

/-- Format selection at main.rs:133-143: filter the advertised formats by
`isSupportedFormat` and take the first survivor (`.filter(..).nth(0)`). -/
def selectFrameFormat (formats : List FrameFormat) : Option FrameFormat :=
  (formats.filter (fun f => isSupportedFormat f.format)).head?

/-- Wrapping u32 multiplication: Rust release-mode `u32 * u32`. -/
def u32Mul (a b : Nat) : Nat := (a * b) % 2 ^ 32

/-- `frame_bytes` at main.rs:152: `frame_format.stride * frame_format.height`
as u32 arithmetic. -/
def frame_bytes (ff : FrameFormat) : Nat := u32Mul ff.stride ff.height

/-- Rust's `as i32` on a u32 value: two's-complement reinterpretation. -/
def toI32 (n : Nat) : Int :=
  if n % 2 ^ 32 < 2 ^ 31 then ((n % 2 ^ 32 : Nat) : Int)
  else ((n % 2 ^ 32 : Nat) : Int) - 2 ^ 32

/-- The error surfaced when no advertised format is supported
(main.rs:149 `bail!("no suitable frame format found")`). -/
inductive NegotiationError where
  | UnsupportedFormat
deriving DecidableEq, Repr

/-- The requests main.rs:154-168 issues once a format is selected:
`set_len(frame_bytes as u64)` on the memfd file, `create_pool(fd,
frame_bytes as i32)`, `create_buffer(0, width as i32, height as i32,
stride as i32, format)`, and `frame.copy(&buffer)`. -/
structure BufferSetup where
  fileLen : Nat
  poolSize : Int
  bufWidth : Int
  bufHeight : Int
  bufStride : Int
  bufFormat : Format
  copyRequested : Bool
deriving DecidableEq, Repr

/-- The negotiation step of `main` (main.rs:133-168): select a format; if
none is supported, fail with `UnsupportedFormat` before any allocation,
buffer creation or copy request; otherwise compute `frame_bytes` and
issue the allocation, buffer creation and copy request. -/
def negotiate (formats : List FrameFormat) :
    Except NegotiationError (FrameFormat × BufferSetup) :=
  match selectFrameFormat formats with
  | none => .error .UnsupportedFormat
  | some ff =>
    let fb := frame_bytes ff
    .ok (ff,
      { fileLen := fb
        poolSize := toI32 fb
        bufWidth := toI32 ff.width
        bufHeight := toI32 ff.height
        bufStride := toI32 ff.stride
        bufFormat := ff.format
        copyRequested := true })

/-- The channel-swap pass at main.rs:186-190: for every complete 4-byte
chunk (`chunks_exact_mut(4)`), exchange bytes 0 and 2; a trailing
remainder of fewer than 4 bytes is left untouched. -/
def swapPixels : List Nat → List Nat
  | b0 :: b1 :: b2 :: b3 :: rest => b2 :: b1 :: b0 :: b3 :: swapPixels rest
  | rest => rest

/-- The only color type the program hands to the encoder. -/
inductive ColorType where
  | Rgba8
deriving DecidableEq, Repr

/-- Pixel normalization at main.rs:184-197: Argb8888 and Xrgb8888 get the
channel swap, Xbgr8888 passes through unchanged, anything else is the
"Unsupported buffer format" error. -/
def normalizePixels (fmt : Format) (data : List Nat) :
    Except String (List Nat × ColorType) :=
  match fmt with
  | .Argb8888 => .ok (swapPixels data, .Rgba8)
  | .Xrgb8888 => .ok (swapPixels data, .Rgba8)
  | .Xbgr8888 => .ok (data, .Rgba8)
  | .Other _ => .error "Unsupported buffer format"

/-- Events of the zwlr_screencopy_frame_v1 handler (main.rs:101-125). -/
inductive FrameEvent where
  | Buffer (f : FrameFormat)
  | Flags
  | Ready
  | Failed
  | Damage
  | LinuxDmabuf
  | BufferDone
deriving DecidableEq, Repr

/-- The mutable cells the frame handler closes over (main.rs:90-92). -/
structure FrameHandlerState where
  frame_formats : List FrameFormat
  frame_state : Option FrameState
  frame_buffer_done : Bool
deriving DecidableEq, Repr

/-- One step of the frame event handler (main.rs:101-125): Buffer events
accumulate formats, Ready/Failed replace the frame state, BufferDone sets
the done flag, Flags/Damage/LinuxDmabuf do nothing. -/
def handleFrameEvent (s : FrameHandlerState) : FrameEvent → FrameHandlerState
  | .Buffer f => { s with frame_formats := s.frame_formats ++ [f] }
  | .Flags => s
  | .Ready => { s with frame_state := some .Finished }
  | .Failed => { s with frame_state := some .Failed }
  | .Damage => s
  | .LinuxDmabuf => s
  | .BufferDone => { s with frame_buffer_done := true }

/-- Outcome of a run: the bytes written to stdout and the `Result` that
`main` returns. -/
structure RunOutcome where
  stdout : List Nat
  result : Except String Unit
deriving Repr

/-- Process exit status determined by `main`'s `Result`: `Ok` exits 0,
`Err` exits non-zero (anyhow's error exit is 1). -/
def exitCode (r : RunOutcome) : Nat :=
  match r.result with
  | .ok _ => 0
  | .error _ => 1

/-- The copy-wait loop at main.rs:170-209.  Each roundtrip delivers a
batch of frame events folded into the handler state; the loop then takes
the frame state cell.  `Failed` breaks with the "frame copy failed"
error and nothing on stdout; `Finished` normalizes the mapped bytes,
encodes them (the JPEG encoder is abstracted by `encode`) and writes the
stream to stdout; no terminal state loops again.  A `none` result means
the modelled event batches ran out while the code would keep blocking. -/
def copyWait (encode : List Nat → List Nat) (fmt : Format) (data : List Nat) :
    FrameHandlerState → List (List FrameEvent) → Option RunOutcome
  | _, [] => none
  | s, batch :: rest =>
    let s2 := batch.foldl handleFrameEvent s
    match s2.frame_state with
    | some .Failed => some { stdout := [], result := .error "frame copy failed" }
    | some .Finished =>
      match normalizePixels fmt data with
      | .ok (nd, _) => some { stdout := encode nd, result := .ok () }
      | .error e => some { stdout := [], result := .error e }
    | none => copyWait encode fmt data { s2 with frame_state := none } rest

/-- Result of one `memfd_create` call (create_shm_fd, main.rs:218-236). -/
inductive MemfdResult where
  | ok (fd : Nat)
  | eintr
  | enosys
  | err (errno : Nat)
deriving DecidableEq, Repr

/-- Result of the `F_ADD_SEALS` fcntl (main.rs:224-229). -/
inductive SealResult where
  | ok
  | err (errno : Nat)
deriving DecidableEq, Repr

/-- Result of one `shm_open` call (main.rs:246-253). -/
inductive ShmOpenResult where
  | ok (fd : Nat)
  | eexist
  | eintr
  | err (errno : Nat)
deriving DecidableEq, Repr

/-- Result of `shm_unlink` (main.rs:254). -/
inductive UnlinkResult where
  | ok
  | err (errno : Nat)
deriving DecidableEq, Repr

/-- Result of `close` (main.rs:256). -/
inductive CloseResult where
  | ok
  | err (errno : Nat)
deriving DecidableEq, Repr

/-- The memfd loop of `create_shm_fd` (main.rs:217-237), consuming one
`MemfdResult` per `memfd_create` call.  On success the seal fcntl runs
but its result is discarded (`let _ = fcntl(..)`), and the fd is
returned (`Sum.inl (.ok fd)`).  EINTR retries, ENOSYS falls through to
the shm_open fallback (`Sum.inr ()`), any other errno is returned as the
error.  `none` means the modelled results ran out while the loop would
keep retrying. -/
def memfdPhase (sealRes : SealResult) :
    List MemfdResult → Option (Sum (Except Nat Nat) Unit)
  | [] => none
  | r :: rest =>
    match r with
    | .ok fd =>
      match sealRes with
      | .ok => some (.inl (.ok fd))
      | .err _ => some (.inl (.ok fd))
    | .eintr => memfdPhase sealRes rest
    | .enosys => some (.inr ())
    | .err e => some (.inl (.error e))

/-- The shared-memory object name (main.rs:241-244): "/wayshot-" followed
by the sub-second nanoseconds of the `SystemTime` captured once before
the retry loop. -/
def shmName (subsecNanos : Nat) : String :=
  "/wayshot-" ++ toString subsecNanos

/-- The name recomputed on EEXIST (main.rs:265-268): the format string is
re-evaluated, but from the same `sys_time` captured before the loop, so
it yields `shmName subsecNanos` again regardless of the colliding name. -/
def regenName (subsecNanos : Nat) (_old : String) : String :=
  shmName subsecNanos

/-- The shm_open fallback loop of `create_shm_fd` (main.rs:245-275),
consuming one `ShmOpenResult` per `shm_open` call.  On success the name
is unlinked: if unlink succeeds the fd is returned; if unlink fails the
fd is closed and an error is returned — the unlink errno when close
succeeds, the close errno when close fails too.  EEXIST regenerates the
name (via `regenName`) and retries; EINTR retries with the same name;
any other errno is returned.  `none` means the modelled results ran out
while the loop would keep retrying. -/
def shmFallback (subsec : Nat) (unlinkRes : UnlinkResult) (closeRes : CloseResult) :
    List ShmOpenResult → String → Option (Except Nat Nat)
  | [], _ => none
  | r :: rest, name =>
    match r with
    | .ok fd =>
      match unlinkRes with
      | .ok => some (.ok fd)
      | .err e =>
        match closeRes with
        | .ok => some (.error e)
        | .err e2 => some (.error e2)
    | .eexist => shmFallback subsec unlinkRes closeRes rest (regenName subsec name)
    | .eintr => shmFallback subsec unlinkRes closeRes rest name
    | .err e => some (.error e)

/-- The sequence of names `create_shm_fd` passes to successive `shm_open`
calls, for a given stream of results: the current name is recorded for
each call, EEXIST switches to the regenerated name, EINTR keeps the
name, and any terminal result ends the sequence. -/
def shmAttemptNames (subsec : Nat) :
    List ShmOpenResult → String → List String
  | [], _ => []
  | r :: rest, name =>
    name ::
      match r with
      | .eexist => shmAttemptNames subsec rest (regenName subsec name)
      | .eintr => shmAttemptNames subsec rest name
      | .ok _ => []
      | .err _ => []

/-- `create_shm_fd` (main.rs:214-276): run the memfd loop; on ENOSYS fall
through to the shm_open fallback starting from the time-derived name. -/
def create_shm_fd (memfdResults : List MemfdResult) (sealRes : SealResult)
    (subsec : Nat) (shmResults : List ShmOpenResult)
    (unlinkRes : UnlinkResult) (closeRes : CloseResult) :
    Option (Except Nat Nat) :=
  match memfdPhase sealRes memfdResults with
  | none => none
  | some (.inl r) => some r
  | some (.inr ()) => shmFallback subsec unlinkRes closeRes shmResults (shmName subsec)

/-! ## Helper lemmas -/

theorem swapPixels_swapPixels : ∀ data : List Nat, swapPixels (swapPixels data) = data
  | [] => rfl
  | [_] => rfl
  | [_, _] => rfl
  | [_, _, _] => rfl
  | b0 :: b1 :: b2 :: b3 :: rest => by
    simp only [swapPixels, swapPixels_swapPixels rest]

/-! ## Claims -/

/-- C2: applying the channel-swap normalization twice to a buffer whose
length is a multiple of 4 yields the original buffer. -/
theorem c2_normalization_involution (data : List Nat)
    (hlen : data.length % 4 = 0) :
    swapPixels (swapPixels data) = data :=
  swapPixels_swapPixels data

theorem c2_normalization_involution_witness :
    ([1, 2, 3, 4, 5, 6, 7, 8] : List Nat).length % 4 = 0
    ∧ swapPixels (swapPixels [1, 2, 3, 4, 5, 6, 7, 8]) = [1, 2, 3, 4, 5, 6, 7, 8] :=
  ⟨by decide, c2_normalization_involution [1, 2, 3, 4, 5, 6, 7, 8] (by decide)⟩

/-- C3: the normalization exchanges the first and third byte of every
aligned 4-byte group and leaves the second and fourth bytes unchanged;
concretely [0x11,0x22,0x33,0xFF, 0x44,0x55,0x66,0xFF] becomes
[0x33,0x22,0x11,0xFF, 0x66,0x55,0x44,0xFF]. -/
theorem c3_swap_first_third_bytes :
    (∀ (b0 b1 b2 b3 : Nat) (rest : List Nat),
      swapPixels (b0 :: b1 :: b2 :: b3 :: rest)
        = b2 :: b1 :: b0 :: b3 :: swapPixels rest)
    ∧ swapPixels [0x11, 0x22, 0x33, 0xFF, 0x44, 0x55, 0x66, 0xFF]
        = [0x33, 0x22, 0x11, 0xFF, 0x66, 0x55, 0x44, 0xFF] :=
  ⟨fun _ _ _ _ _ => rfl, rfl⟩

/-- C9: for the blue-first layout Xbgr8888 the pixel normalizer passes
the buffer through byte-for-byte unchanged. -/
theorem c9_xbgr_passthrough (data : List Nat) :
    normalizePixels .Xbgr8888 data = .ok (data, .Rgba8) := rfl

/-- C10: in the memfd path, the result of the seal-adding fcntl is
discarded: whenever memfd_create succeeds (here after any number of
EINTR retries), the allocator returns that descriptor successfully even
if sealing failed. -/
theorem c10_seal_failure_ignored (sealRes : SealResult) (fd : Nat)
    (k : Nat) (rest : List MemfdResult) :
    memfdPhase sealRes (List.replicate k .eintr ++ .ok fd :: rest)
      = some (.inl (.ok fd)) := by
  induction k with
  | zero => cases sealRes <;> rfl
  | succ n ih => simpa [List.replicate_succ, memfdPhase] using ih

/-- C1 (code): with the timestamp 12345 captured before the retry loop,
two EEXIST collisions followed by a successful shm_open make the
allocator attempt the very same name three times — the regenerated name
equals the colliding one — and return the descriptor successfully. -/
theorem c1_collision_retry_same_name :
    shmAttemptNames 12345 [.eexist, .eexist, .ok 7] (shmName 12345)
      = [shmName 12345, shmName 12345, shmName 12345]
    ∧ shmFallback 12345 .ok .ok [.eexist, .eexist, .ok 7] (shmName 12345)
      = some (.ok 7)
    ∧ regenName 12345 (shmName 12345) = shmName 12345 :=
  ⟨rfl, rfl, rfl⟩

/-- C8 (counterexample): when shm_open succeeds with fd 3, unlink fails
with errno 13 and the subsequent close fails with errno 5, the allocator
surfaces errno 5 (the close error), not errno 13 (the unlink error) as
the claim states. -/
theorem c8_counterexample :
    shmFallback 0 (.err 13) (.err 5) [.ok 3] (shmName 0) = some (.error 5)
    ∧ shmFallback 0 (.err 13) (.err 5) [.ok 3] (shmName 0) ≠ some (.error 13) :=
  ⟨rfl, by simp [shmFallback]⟩

/-- C8 (amended): if shm_open succeeds but unlinking fails, the
allocator closes the descriptor; the unlink error is surfaced when the
close succeeds, and the close error is surfaced when the close fails
too. -/
theorem c8_unlink_error_surfaced (subsec e e2 fd : Nat)
    (rest : List ShmOpenResult) (name : String) :
    shmFallback subsec (.err e) .ok (.ok fd :: rest) name = some (.error e)
    ∧ shmFallback subsec (.err e) (.err e2) (.ok fd :: rest) name
        = some (.error e2) :=
  ⟨rfl, rfl⟩

theorem filter_supported_eq_nil (l : List FrameFormat)
    (h : ∀ f ∈ l, isSupportedFormat f.format = false) :
    l.filter (fun f => isSupportedFormat f.format) = [] := by
  induction l with
  | nil => rfl
  | cons a rest ih =>
    rw [List.filter_cons, h a (List.mem_cons_self a rest)]
    exact ih fun f hf => h f (List.mem_cons_of_mem a hf)

/-- C4: if every format before `f` in the advertised list is unsupported
and `f` is supported, the negotiator selects `f`, regardless of the
entries before or after it. -/
theorem c4_first_supported_selected (pre post : List FrameFormat)
    (f : FrameFormat) (hf : isSupportedFormat f.format = true)
    (hpre : ∀ g ∈ pre, isSupportedFormat g.format = false) :
    selectFrameFormat (pre ++ f :: post) = some f := by
  unfold selectFrameFormat
  rw [List.filter_append, filter_supported_eq_nil pre hpre, List.nil_append,
    List.filter_cons, hf]
  rfl

theorem c4_first_supported_selected_witness :
    selectFrameFormat
      [⟨.Other 0, 1, 1, 4⟩, ⟨.Argb8888, 2, 3, 8⟩, ⟨.Xbgr8888, 1, 1, 4⟩]
      = some ⟨.Argb8888, 2, 3, 8⟩ :=
  c4_first_supported_selected [⟨.Other 0, 1, 1, 4⟩] [⟨.Xbgr8888, 1, 1, 4⟩]
    ⟨.Argb8888, 2, 3, 8⟩ (by decide) (by decide)

/-- C5: if no advertised format is supported, negotiation fails with
`UnsupportedFormat` and never produces a buffer setup, so no allocation,
buffer creation or copy request is issued. -/
theorem c5_unsupported_no_buffer (formats : List FrameFormat)
    (h : ∀ f ∈ formats, isSupportedFormat f.format = false) :
    negotiate formats = .error .UnsupportedFormat
    ∧ ∀ r : FrameFormat × BufferSetup, negotiate formats ≠ .ok r := by
  have hsel : selectFrameFormat formats = none := by
    unfold selectFrameFormat
    rw [filter_supported_eq_nil formats h]
    rfl
  have hneg : negotiate formats = .error .UnsupportedFormat := by
    unfold negotiate
    rw [hsel]
  exact ⟨hneg, fun r hr => by rw [hneg] at hr; exact Except.noConfusion hr⟩

theorem c5_unsupported_no_buffer_witness :
    negotiate [⟨.Other 909199186, 64, 64, 256⟩, ⟨.Other 842093913, 64, 64, 256⟩]
      = .error .UnsupportedFormat :=
  (c5_unsupported_no_buffer
    [⟨.Other 909199186, 64, 64, 256⟩, ⟨.Other 842093913, 64, 64, 256⟩]
    (by decide)).1

/-- C6 (counterexample): for the advertised format with stride 65536 and
height 65536 the u32 product wraps to 0, so the byte length computed at
main.rs:152 is 0, not the unbounded product 65536 * 65536. -/
theorem c6_counterexample :
    frame_bytes ⟨.Xrgb8888, 1024, 65536, 65536⟩ = 0
    ∧ frame_bytes ⟨.Xrgb8888, 1024, 65536, 65536⟩
        ≠ (⟨.Xrgb8888, 1024, 65536, 65536⟩ : FrameFormat).stride
          * (⟨.Xrgb8888, 1024, 65536, 65536⟩ : FrameFormat).height :=
  ⟨rfl, by decide⟩

/-- C6 (amended): whenever the selected format's stride * height is below
2^31, the byte length used to size the file and the pool equals exactly
stride * height; for larger products the u32 multiplication wraps modulo
2^32 and the pool size reinterprets the result as a signed 32-bit
value. -/
theorem c6_size_exact_when_small (formats : List FrameFormat)
    (ff : FrameFormat) (setup : BufferSetup)
    (hsel : negotiate formats = .ok (ff, setup))
    (hsmall : ff.stride * ff.height < 2 ^ 31) :
    setup.fileLen = ff.stride * ff.height
    ∧ setup.poolSize = ((ff.stride * ff.height : Nat) : Int) := by
  have h32 : ff.stride * ff.height < 2 ^ 32 :=
    lt_trans hsmall (by norm_num)
  have hfb : frame_bytes ff = ff.stride * ff.height := by
    unfold frame_bytes u32Mul
    exact Nat.mod_eq_of_lt h32
  have hmod : ff.stride * ff.height % 2 ^ 32 = ff.stride * ff.height :=
    Nat.mod_eq_of_lt h32
  unfold negotiate at hsel
  cases hs : selectFrameFormat formats with
  | none => rw [hs] at hsel; exact Except.noConfusion hsel
  | some g =>
    rw [hs] at hsel
    simp only [Except.ok.injEq, Prod.mk.injEq] at hsel
    obtain ⟨hg, hsetup⟩ := hsel
    subst hg
    constructor
    · rw [← hsetup]
      exact hfb
    · rw [← hsetup]
      show toI32 (frame_bytes g) = _
      unfold toI32
      rw [hfb, hmod, if_pos hsmall]

theorem c6_size_exact_when_small_witness :
    (⟨8, 8, 2, 1, 8, .Argb8888, true⟩ : BufferSetup).fileLen
        = (⟨.Argb8888, 2, 1, 8⟩ : FrameFormat).stride
          * (⟨.Argb8888, 2, 1, 8⟩ : FrameFormat).height
    ∧ (⟨8, 8, 2, 1, 8, .Argb8888, true⟩ : BufferSetup).poolSize
        = (((⟨.Argb8888, 2, 1, 8⟩ : FrameFormat).stride
          * (⟨.Argb8888, 2, 1, 8⟩ : FrameFormat).height : Nat) : Int) :=
  c6_size_exact_when_small [⟨.Argb8888, 2, 1, 8⟩] ⟨.Argb8888, 2, 1, 8⟩
    ⟨8, 8, 2, 1, 8, .Argb8888, true⟩ rfl (by decide)

theorem foldl_handleFrameEvent_state (batch : List FrameEvent)
    (s : FrameHandlerState) (hready : FrameEvent.Ready ∉ batch) :
    (batch.foldl handleFrameEvent s).frame_state
      = if FrameEvent.Failed ∈ batch then some .Failed else s.frame_state := by
  induction batch generalizing s with
  | nil => simp
  | cons e rest ih =>
    have hready' : FrameEvent.Ready ∉ rest := fun h =>
      hready (List.mem_cons_of_mem e h)
    rw [List.foldl_cons, ih (handleFrameEvent s e) hready']
    cases e with
    | Ready => exact absurd (List.mem_cons_self _ _) hready
    | Failed => simp [handleFrameEvent, List.mem_cons]
    | Buffer f => simp [handleFrameEvent, List.mem_cons]
    | Flags => simp [handleFrameEvent, List.mem_cons]
    | Damage => simp [handleFrameEvent, List.mem_cons]
    | LinuxDmabuf => simp [handleFrameEvent, List.mem_cons]
    | BufferDone => simp [handleFrameEvent, List.mem_cons]

/-- C7: if a Failed event arrives (in some roundtrip batch) while no
Ready event ever does, the copy-wait loop returns the "frame copy
failed" error, the process exit status is non-zero, and nothing is
written to stdout. -/
theorem c7_failed_surfaces_error (encode : List Nat → List Nat)
    (fmt : Format) (data : List Nat) (s : FrameHandlerState)
    (batches : List (List FrameEvent))
    (hs : s.frame_state = none)
    (hfail : FrameEvent.Failed ∈ batches.flatten)
    (hready : FrameEvent.Ready ∉ batches.flatten) :
    copyWait encode fmt data s batches
      = some { stdout := [], result := .error "frame copy failed" }
    ∧ exitCode { stdout := [], result := .error "frame copy failed" } ≠ 0 := by
  refine ⟨?_, by decide⟩
  induction batches generalizing s with
  | nil => simp at hfail
  | cons b rest ih =>
    have hready_b : FrameEvent.Ready ∉ b := fun h =>
      hready (by simp [List.mem_flatten]; exact Or.inl h)
    have hready_rest : FrameEvent.Ready ∉ rest.flatten := fun h =>
      hready (by simp [List.mem_flatten] at h ⊢; exact Or.inr h)
    rw [copyWait]
    rw [foldl_handleFrameEvent_state b s hready_b, hs]
    by_cases hf : FrameEvent.Failed ∈ b
    · simp [hf]
    · have hfail_rest : FrameEvent.Failed ∈ rest.flatten := by
        simp [List.mem_flatten] at hfail ⊢
        rcases hfail with h | h
        · exact absurd h hf
        · exact h
      simp only [hf, if_false]
      exact ih _ rfl hfail_rest hready_rest

theorem c7_failed_surfaces_error_witness :
    copyWait id .Xrgb8888 [] ⟨[], none, true⟩ [[.Damage], [.Failed]]
      = some { stdout := [], result := .error "frame copy failed" }
    ∧ exitCode { stdout := [], result := .error "frame copy failed" } ≠ 0 :=
  c7_failed_surfaces_error id .Xrgb8888 [] ⟨[], none, true⟩
    [[.Damage], [.Failed]] rfl (by decide) (by decide)
